import Mathlib

/-!
Verification development for the CS4278/5478 motion-planning engine
(files `CSDA_planner.py` and `DSPA_planner.py`).

The Python code is shallowly embedded: occupancy grids are functions
`ℕ → ℕ → ℤ`, world coordinates are elements of a linear ordered field
(`ℚ` where we evaluate concrete cases, `ℝ` where the code uses
trigonometry), Python's `int(...)` conversion is truncation toward
zero, and numpy's 2-D indexing (negative-index wrap-around,
`IndexError` on out-of-range access) is modelled by an `Option`-valued
lookup.
-/

/-- Python's `int(q)` applied to a real quantity: truncation toward zero. -/
def pyInt {K : Type*} [LinearOrderedField K] [FloorRing K] (q : K) : ℤ :=
  if 0 ≤ q then ⌊q⌋ else -⌊-q⌋

/-- numpy 2-D indexing `g[r, c]` on an array of shape `(H, W)`:
indices in `[-H, H)` (resp. `[-W, W)`) are valid, negative ones wrap
around; anything else raises `IndexError`, modelled as `none`. -/
def npIndex (g : ℕ → ℕ → ℤ) (H W : ℕ) (r c : ℤ) : Option ℤ :=
  if -(H : ℤ) ≤ r ∧ r < (H : ℤ) ∧ -(W : ℤ) ≤ c ∧ c < (W : ℤ) then
    some (g (r % (H : ℤ)).toNat (c % (W : ℤ)).toNat)
  else none

/-- The planner state shared by both planner files: world size in pixels,
map resolution, and the inflated occupancy grid `aug_map`. -/
structure Planner (K : Type*) where
  world_width : ℕ
  world_height : ℕ
  resolution : K
  aug_map : ℕ → ℕ → ℤ

/-- `CSDA_planner.Planner.collision_checker`: indexes `aug_map` at
`(int(y/resolution), int(x/resolution))` with no bounds check and
reports a collision iff the cell value is 100.  `none` models the
`IndexError` numpy raises on an out-of-range index. -/
def collision_checker_CSDA {K : Type*} [LinearOrderedField K] [FloorRing K]
    (p : Planner K) (x y : K) : Option Bool :=
  (npIndex p.aug_map p.world_height p.world_width
      (pyInt (y / p.resolution)) (pyInt (x / p.resolution))).map (fun v => v == 100)

/-- `DSPA_planner.Planner.collision_checker`: reports a collision when
`int(y/res) <= 0`, `int(y/res) >= world_height`, `int(x/res) <= 0`,
`int(x/res) >= world_width` (short-circuiting before the array access),
or when the indexed `aug_map` cell equals 100. -/
def collision_checker_DSPA {K : Type*} [LinearOrderedField K] [FloorRing K]
    (p : Planner K) (x y : K) : Option Bool :=
  if pyInt (y / p.resolution) ≤ 0 ∨ (p.world_height : ℤ) ≤ pyInt (y / p.resolution) ∨
      pyInt (x / p.resolution) ≤ 0 ∨ (p.world_width : ℤ) ≤ pyInt (x / p.resolution) then
    some true
  else
    (npIndex p.aug_map p.world_height p.world_width
        (pyInt (y / p.resolution)) (pyInt (x / p.resolution))).map (fun v => v == 100)

/-- `(x, y)` falls outside `[0, width) × [0, height)` in grid units
(grid units: division by the resolution, truncated toward zero). -/
@[reducible] def outOfBoundsIdx {K : Type*} [LinearOrderedField K] [FloorRing K]
    (p : Planner K) (x y : K) : Prop :=
  pyInt (x / p.resolution) < 0 ∨ (p.world_width : ℤ) ≤ pyInt (x / p.resolution) ∨
    pyInt (y / p.resolution) < 0 ∨ (p.world_height : ℤ) ≤ pyInt (y / p.resolution)

theorem pyInt_nonpos_of_lt_one {K : Type*} [LinearOrderedField K] [FloorRing K]
    {q : K} (h : q < 1) : pyInt q ≤ 0 := by
  unfold pyInt
  split
  · exact Int.le_of_lt_add_one (by simpa using Int.floor_lt.mpr (by exact_mod_cast h))
  · rename_i h0
    push_neg at h0
    simp only [neg_nonpos]
    exact Int.le_floor.mpr (by simpa using h0.le)

theorem collision_checker_DSPA_isSome {K : Type*} [LinearOrderedField K] [FloorRing K]
    (p : Planner K) (x y : K) : ∃ b, collision_checker_DSPA p x y = some b := by
  unfold collision_checker_DSPA
  split
  · exact ⟨true, rfl⟩
  · rename_i h
    push_neg at h
    obtain ⟨h1, h2, h3, h4⟩ := h
    unfold npIndex
    rw [if_pos (by omega)]
    exact ⟨_, rfl⟩

theorem collision_checker_DSPA_oob {K : Type*} [LinearOrderedField K] [FloorRing K]
    (p : Planner K) (x y : K) (h : outOfBoundsIdx p x y) :
    collision_checker_DSPA p x y = some true := by
  unfold collision_checker_DSPA
  rw [if_pos (by unfold outOfBoundsIdx at h; omega)]

/-! ## Motion model (`motion_predict` of both planner files) -/

/-- Result of a `motion_predict` call: a pose, the `None` collision
sentinel, or an uncaught `IndexError` from the collision checker. -/
inductive MPResult where
  | fault : MPResult
  | collision : MPResult
  | ok : ℝ → ℝ → ℝ → MPResult

/-- One sub-step of the unicycle integration: the displacement added to
`(x, y)` before the collision test (`θ` is advanced only after the
test, by the caller). -/
noncomputable def subStep (v w freq : ℝ) (s : ℝ × ℝ × ℝ) : ℝ × ℝ × ℝ :=
  (s.1 + (if w ≠ 0 then -v / w * Real.sin s.2.2 + v / w * Real.sin (s.2.2 + w / freq)
          else v * Real.cos s.2.2 / freq),
    s.2.1 + (if w ≠ 0 then v / w * Real.cos s.2.2 - v / w * Real.cos (s.2.2 + w / freq)
             else v * Real.sin s.2.2 / freq),
    s.2.2)

/-- The sub-step loop of `motion_predict`, parametrised by the
collision checker of the planner instance (`self.collision_checker`). -/
noncomputable def motionPredictAux (chk : ℝ → ℝ → Option Bool) (v w freq : ℝ) :
    ℕ → ℝ × ℝ × ℝ → MPResult
  | 0, s => MPResult.ok s.1 s.2.1 s.2.2
  | n + 1, s =>
    match chk (subStep v w freq s).1 (subStep v w freq s).2.1 with
    | none => MPResult.fault
    | some true => MPResult.collision
    | some false =>
      motionPredictAux chk v w freq n
        ((subStep v w freq s).1, (subStep v w freq s).2.1, (subStep v w freq s).2.2 + w / freq)

/-- `Planner.motion_predict`: `int(dt * frequency)` sub-steps of the
unicycle model starting from `(x, y, θ)`. -/
noncomputable def motion_predict (chk : ℝ → ℝ → Option Bool) (x y θ v w dt frequency : ℝ) :
    MPResult :=
  motionPredictAux chk v w frequency (pyInt (dt * frequency)).toNat (x, y, θ)

/-- A 4×4 all-free map at resolution 1, over `ℚ` (for evaluated checks). -/
def pQ4 : Planner ℚ := ⟨4, 4, 1, fun _ _ => 0⟩

/-- A 4×4 all-free map at resolution 1, over `ℝ`. -/
noncomputable def pR4 : Planner ℝ := ⟨4, 4, 1, fun _ _ => 0⟩

theorem motionPredictAux_DSPA_ne_fault (p : Planner ℝ) (v w freq : ℝ) (n : ℕ)
    (s : ℝ × ℝ × ℝ) : motionPredictAux (collision_checker_DSPA p) v w freq n s ≠ MPResult.fault := by
  induction n generalizing s with
  | zero => simp [motionPredictAux]
  | succ n ih =>
    obtain ⟨b, hb⟩ := collision_checker_DSPA_isSome p (subStep v w freq s).1 (subStep v w freq s).2.1
    rw [motionPredictAux, hb]
    cases b
    · exact ih _
    · simp

/-- C1 (corrected to the DSPA planner): the DSPA `collision_checker` never
raises an array-access fault and reports a collision on every world
coordinate outside `[0, width) × [0, height)` in grid units; consequently
`motion_predict` built on it never faults, and as soon as a tested
sub-step position is out of bounds it returns the COLLISION sentinel. -/
theorem C1_dspa_out_of_bounds_safe :
    (∀ (K : Type) [LinearOrderedField K] [FloorRing K] (p : Planner K) (x y : K),
        (∃ b, collision_checker_DSPA p x y = some b) ∧
        (outOfBoundsIdx p x y → collision_checker_DSPA p x y = some true)) ∧
    (∀ (p : Planner ℝ) (v w : ℝ) (n : ℕ) (s : ℝ × ℝ × ℝ),
        motionPredictAux (collision_checker_DSPA p) v w 10 n s ≠ MPResult.fault ∧
        (outOfBoundsIdx p (subStep v w 10 s).1 (subStep v w 10 s).2.1 →
          motionPredictAux (collision_checker_DSPA p) v w 10 (n + 1) s = MPResult.collision)) := by
  refine ⟨fun K _ _ p x y =>
      ⟨collision_checker_DSPA_isSome p x y, collision_checker_DSPA_oob p x y⟩,
    fun p v w n s => ⟨motionPredictAux_DSPA_ne_fault p v w 10 n s, fun h => ?_⟩⟩
  rw [motionPredictAux, collision_checker_DSPA_oob p _ _ h]

theorem C1_dspa_witness :
    collision_checker_DSPA pQ4 (10 : ℚ) 1 = some true ∧
    motionPredictAux (collision_checker_DSPA pR4) 0 0 10 1 ((10 : ℝ), 1, 0) =
      MPResult.collision := by
  constructor
  · exact (C1_dspa_out_of_bounds_safe.1 ℚ pQ4 10 1).2
      (by norm_num [outOfBoundsIdx, pyInt, pQ4])
  · exact (C1_dspa_out_of_bounds_safe.2 pR4 0 0 0 (10, 1, 0)).2
      (by norm_num [outOfBoundsIdx, pyInt, pR4, subStep])

/-- C1 counterexample: the CSDA `collision_checker` does no bounds check.
At `(x, y) = (-2, 1)` on a 4×4 all-free map the coordinate is out of
bounds in grid units, yet numpy's negative-index wrap-around silently
reads cell `(1, 2)` and the checker reports *no* collision; at
`(x, y) = (100, 1)` the access raises `IndexError` instead of reporting
a collision. -/
theorem C1_csda_counterexample :
    outOfBoundsIdx pQ4 (-2 : ℚ) 1 ∧
    collision_checker_CSDA pQ4 (-2 : ℚ) 1 = some false ∧
    collision_checker_CSDA pQ4 (100 : ℚ) 1 = none := by
  refine ⟨by norm_num [outOfBoundsIdx, pyInt, pQ4], ?_, ?_⟩ <;>
    norm_num [collision_checker_CSDA, npIndex, pyInt, pQ4]

/-- C10: the DSPA `collision_checker` is total (no out-of-range array
indexing), returns collision whenever `int(x/res) ≤ 0`, `int(x/res) ≥
world_width`, `int(y/res) ≤ 0` or `int(y/res) ≥ world_height`, and in
particular reports a collision for every pose with `x < resolution` or
`y < resolution`, regardless of the stored map content. -/
theorem C10_checker_total_conservative {K : Type*} [LinearOrderedField K] [FloorRing K]
    (p : Planner K) (x y : K) :
    (∃ b, collision_checker_DSPA p x y = some b) ∧
    (pyInt (x / p.resolution) ≤ 0 ∨ (p.world_width : ℤ) ≤ pyInt (x / p.resolution) ∨
        pyInt (y / p.resolution) ≤ 0 ∨ (p.world_height : ℤ) ≤ pyInt (y / p.resolution) →
      collision_checker_DSPA p x y = some true) ∧
    (0 < p.resolution → x < p.resolution → collision_checker_DSPA p x y = some true) ∧
    (0 < p.resolution → y < p.resolution → collision_checker_DSPA p x y = some true) := by
  refine ⟨collision_checker_DSPA_isSome p x y, fun h => ?_, fun hres hx => ?_, fun hres hy => ?_⟩
  · unfold collision_checker_DSPA
    rw [if_pos (by tauto)]
  · have : pyInt (x / p.resolution) ≤ 0 :=
      pyInt_nonpos_of_lt_one ((div_lt_one hres).mpr hx)
    unfold collision_checker_DSPA
    rw [if_pos (by tauto)]
  · have : pyInt (y / p.resolution) ≤ 0 :=
      pyInt_nonpos_of_lt_one ((div_lt_one hres).mpr hy)
    unfold collision_checker_DSPA
    rw [if_pos (by tauto)]

theorem C10_checker_witness :
    collision_checker_DSPA pQ4 (1/2 : ℚ) 3 = some true :=
  (C10_checker_total_conservative pQ4 (1/2) 3).2.2.1 (by norm_num [pQ4]) (by norm_num [pQ4])

theorem motionPredictAux_straight (chk : ℝ → ℝ → Option Bool) (v freq : ℝ) (n : ℕ)
    (a b θ : ℝ)
    (h : ∀ k : ℕ, k < n →
      chk (a + v * Real.cos θ * (k + 1) / freq) (b + v * Real.sin θ * (k + 1) / freq) =
        some false) :
    motionPredictAux chk v 0 freq n (a, b, θ) =
      MPResult.ok (a + v * Real.cos θ * n / freq) (b + v * Real.sin θ * n / freq) θ := by
  induction n generalizing a b with
  | zero => simp [motionPredictAux]
  | succ n ih =>
    have hsub : subStep v 0 freq (a, b, θ) =
        (a + v * Real.cos θ / freq, b + v * Real.sin θ / freq, θ) := by
      simp [subStep]
    have h0 : chk (a + v * Real.cos θ / freq) (b + v * Real.sin θ / freq) = some false := by
      simpa using h 0 (Nat.succ_pos n)
    have hrec := ih (a + v * Real.cos θ / freq) (b + v * Real.sin θ / freq) (fun k hk => by
      have e1 : a + v * Real.cos θ / freq + v * Real.cos θ * ((k : ℝ) + 1) / freq =
          a + v * Real.cos θ * (((k + 1 : ℕ) : ℝ) + 1) / freq := by push_cast; ring
      have e2 : b + v * Real.sin θ / freq + v * Real.sin θ * ((k : ℝ) + 1) / freq =
          b + v * Real.sin θ * (((k + 1 : ℕ) : ℝ) + 1) / freq := by push_cast; ring
      rw [e1, e2]
      exact h (k + 1) (by omega))
    rw [motionPredictAux, hsub]
    simp only [h0]
    rw [show θ + 0 / freq = θ by rw [zero_div, add_zero], hrec]
    congr 1 <;> push_cast <;> ring

/-- C7: with `ω = 0`, `dt = 0.5` and `frequency = 10`, if none of the
five sub-step positions is reported as a collision, `motion_predict`
returns exactly `(x + v·dt·cos θ, y + v·dt·sin θ, θ)`. -/
theorem C7_straight_line (chk : ℝ → ℝ → Option Bool) (x y θ v : ℝ)
    (h : ∀ k : ℕ, k < 5 →
      chk (x + v * Real.cos θ * (k + 1) / 10) (y + v * Real.sin θ * (k + 1) / 10) =
        some false) :
    motion_predict chk x y θ v 0 (1/2) 10 =
      MPResult.ok (x + v * (1/2) * Real.cos θ) (y + v * (1/2) * Real.sin θ) θ := by
  have h5 : (pyInt ((1/2 : ℝ) * 10)).toNat = 5 := by
    have h5a : pyInt ((1/2 : ℝ) * 10) = 5 := by norm_num [pyInt]
    rw [h5a]
    rfl
  rw [motion_predict, h5, motionPredictAux_straight chk v 10 5 x y θ h]
  congr 1 <;> push_cast <;> ring

theorem C7_straight_line_witness :
    motion_predict (fun _ _ => some false) 0 0 0 1 0 (1/2) 10 =
      MPResult.ok (0 + 1 * (1/2) * Real.cos 0) (0 + 1 * (1/2) * Real.sin 0) 0 :=
  C7_straight_line (fun _ _ => some false) 0 0 0 1 (fun _ _ => rfl)

/-! ## Obstacle inflation (`map_callback` of both planner files) -/

/-- An occupancy grid, indexed `(row, column)`. -/
def Grid : Type := ℕ → ℕ → ℤ

/-- Robot footprint in stage units (`ROBOT_SIZE = 0.2552`). -/
def ROBOT_SIZE : ℚ := 2552 / 10000

/-- `pixel_buffer = int(ROBOT_SIZE / resolution * inflation_ratio)`. -/
def pixelBuffer (resolution ir : ℚ) : ℤ := pyInt (ROBOT_SIZE / resolution * ir)

/-- Cell `(i, j)` triggers inflation: occupied in the raw map (value
100) or lying on the grid border. -/
def triggerB (m : Grid) (H W i j : ℕ) : Bool :=
  (m i j == 100) || (i == 0) || (i == H - 1) || (j == 0) || (j == W - 1)

/-- `(r, c)` lies in the rectangle marked for trigger `(i, j)`: rows
`range(max(0, i - pb), min(H, i + pb))`, columns likewise — note the
half-open upper end, exactly as the Python `range` bounds. -/
def inWindowB (H W : ℕ) (pb : ℤ) (i j r c : ℕ) : Bool :=
  decide (max 0 ((i : ℤ) - pb) ≤ (r : ℤ) ∧ (r : ℤ) < min (H : ℤ) ((i : ℤ) + pb) ∧
    max 0 ((j : ℤ) - pb) ≤ (c : ℤ) ∧ (c : ℤ) < min (W : ℤ) ((j : ℤ) + pb))

/-- The two inner `for` loops: write 100 into every cell of the
trigger's rectangle. -/
def markWindow (H W : ℕ) (pb : ℤ) (i j : ℕ) (g : Grid) : Grid := fun r c =>
  if inWindowB H W pb i j r c then 100 else g r c

/-- Body of the column loop of `map_callback`. -/
def inflateStep (m : Grid) (H W : ℕ) (pb : ℤ) (i : ℕ) (g : Grid) (j : ℕ) : Grid :=
  if triggerB m H W i j then markWindow H W pb i j g else g

/-- The column loop of `map_callback` for row `i`. -/
def inflateRow (m : Grid) (H W : ℕ) (pb : ℤ) (i : ℕ) (g : Grid) : Grid :=
  (List.range W).foldl (inflateStep m H W pb i) g

/-- The full inflation of `map_callback`: `aug_map` starts as a copy of
the raw map and the double loop marks every trigger's rectangle. -/
def inflate (m : Grid) (H W : ℕ) (pb : ℤ) : Grid :=
  (List.range H).foldl (fun g i => inflateRow m H W pb i g) m

theorem inflateRowAux_eq (m : Grid) (H W : ℕ) (pb : ℤ) (i : ℕ) :
    ∀ (n : ℕ) (g : Grid) (r c : ℕ),
      ((List.range n).foldl (inflateStep m H W pb i) g) r c = 100 ↔
        (g r c = 100 ∨
          ∃ j, j < n ∧ triggerB m H W i j = true ∧ inWindowB H W pb i j r c = true) := by
  intro n
  induction n with
  | zero =>
    intro g r c
    simp [List.range_zero]
  | succ n ih =>
    intro g r c
    rw [List.range_succ, List.foldl_append, List.foldl_cons, List.foldl_nil]
    have hstep : inflateStep m H W pb i ((List.range n).foldl (inflateStep m H W pb i) g) n =
        if triggerB m H W i n then
          markWindow H W pb i n ((List.range n).foldl (inflateStep m H W pb i) g)
        else (List.range n).foldl (inflateStep m H W pb i) g := rfl
    rw [hstep]
    by_cases ht : triggerB m H W i n = true
    · rw [if_pos ht]
      by_cases hw : inWindowB H W pb i n r c = true
      · constructor
        · intro _
          exact Or.inr ⟨n, Nat.lt_succ_self n, ht, hw⟩
        · intro _
          simp [markWindow, hw]
      · have hmk : markWindow H W pb i n ((List.range n).foldl (inflateStep m H W pb i) g) r c =
            ((List.range n).foldl (inflateStep m H W pb i) g) r c := by
          simp [markWindow, hw]
        rw [hmk, ih g r c]
        constructor
        · rintro (hg | ⟨j, hj, htj, hwj⟩)
          · exact Or.inl hg
          · exact Or.inr ⟨j, by omega, htj, hwj⟩
        · rintro (hg | ⟨j, hj, htj, hwj⟩)
          · exact Or.inl hg
          · rcases Nat.lt_succ_iff_lt_or_eq.mp hj with h | h
            · exact Or.inr ⟨j, h, htj, hwj⟩
            · subst h
              exact absurd hwj hw
    · rw [if_neg ht, ih g r c]
      constructor
      · rintro (hg | ⟨j, hj, htj, hwj⟩)
        · exact Or.inl hg
        · exact Or.inr ⟨j, by omega, htj, hwj⟩
      · rintro (hg | ⟨j, hj, htj, hwj⟩)
        · exact Or.inl hg
        · rcases Nat.lt_succ_iff_lt_or_eq.mp hj with h | h
          · exact Or.inr ⟨j, h, htj, hwj⟩
          · subst h
            exact absurd htj ht

theorem inflateRow_eq (m : Grid) (H W : ℕ) (pb : ℤ) (i : ℕ) (g : Grid) (r c : ℕ) :
    inflateRow m H W pb i g r c = 100 ↔
      (g r c = 100 ∨
        ∃ j, j < W ∧ triggerB m H W i j = true ∧ inWindowB H W pb i j r c = true) :=
  inflateRowAux_eq m H W pb i W g r c

theorem inflateAux_eq (m : Grid) (H W : ℕ) (pb : ℤ) :
    ∀ (n : ℕ) (g : Grid) (r c : ℕ),
      ((List.range n).foldl (fun g i => inflateRow m H W pb i g) g) r c = 100 ↔
        (g r c = 100 ∨
          ∃ i, i < n ∧ ∃ j, j < W ∧ triggerB m H W i j = true ∧
            inWindowB H W pb i j r c = true) := by
  intro n
  induction n with
  | zero =>
    intro g r c
    simp [List.range_zero]
  | succ n ih =>
    intro g r c
    rw [List.range_succ, List.foldl_append, List.foldl_cons, List.foldl_nil]
    rw [inflateRow_eq, ih g r c]
    constructor
    · rintro ((hg | ⟨i, hi, hrest⟩) | ⟨j, hj, htj, hwj⟩)
      · exact Or.inl hg
      · exact Or.inr ⟨i, by omega, hrest⟩
      · exact Or.inr ⟨n, Nat.lt_succ_self n, j, hj, htj, hwj⟩
    · rintro (hg | ⟨i, hi, hrest⟩)
      · exact Or.inl (Or.inl hg)
      · rcases Nat.lt_succ_iff_lt_or_eq.mp hi with h | h
        · exact Or.inl (Or.inr ⟨i, h, hrest⟩)
        · subst h
          exact Or.inr hrest

theorem inflate_eq_100_iff (m : Grid) (H W : ℕ) (pb : ℤ) (r c : ℕ) :
    inflate m H W pb r c = 100 ↔
      (m r c = 100 ∨
        ∃ i, i < H ∧ ∃ j, j < W ∧ triggerB m H W i j = true ∧
          inWindowB H W pb i j r c = true) :=
  inflateAux_eq m H W pb H m r c

theorem foldl_grid_preserve {α : Type*} (step : Grid → α → Grid) (r c : ℕ)
    (hstep : ∀ g a, step g a r c = 100 ∨ step g a r c = g r c) :
    ∀ (l : List α) (g : Grid), (l.foldl step g) r c = 100 ∨ (l.foldl step g) r c = g r c := by
  intro l
  induction l with
  | nil =>
    intro g
    exact Or.inr rfl
  | cons a l ih =>
    intro g
    rw [List.foldl_cons]
    rcases ih (step g a) with h | h
    · exact Or.inl h
    · rcases hstep g a with h2 | h2
      · exact Or.inl (h.trans h2)
      · exact Or.inr (h.trans h2)

theorem inflateRow_preserve (m : Grid) (H W : ℕ) (pb : ℤ) (i : ℕ) (g : Grid) (r c : ℕ) :
    inflateRow m H W pb i g r c = 100 ∨ inflateRow m H W pb i g r c = g r c := by
  refine foldl_grid_preserve (inflateStep m H W pb i) r c (fun g j => ?_) (List.range W) g
  by_cases ht : triggerB m H W i j = true
  · by_cases hw : inWindowB H W pb i j r c = true
    · exact Or.inl (by simp [inflateStep, markWindow, ht, hw])
    · exact Or.inr (by simp [inflateStep, markWindow, ht, hw])
  · exact Or.inr (by simp [inflateStep, ht])

theorem inflate_preserve (m : Grid) (H W : ℕ) (pb : ℤ) (r c : ℕ) :
    inflate m H W pb r c = 100 ∨ inflate m H W pb r c = m r c :=
  foldl_grid_preserve (fun g i => inflateRow m H W pb i g) r c
    (fun g i => inflateRow_preserve m H W pb i g r c) (List.range H) m

theorem inflate_occupied (m : Grid) (H W : ℕ) (pb : ℤ) (r c : ℕ) (h : m r c = 100) :
    inflate m H W pb r c = 100 :=
  (inflate_eq_100_iff m H W pb r c).mpr (Or.inl h)

/-- A 7×7 grid whose only occupied cell is `(3, 3)`. -/
def mC2 : Grid := fun i j => if i = 3 ∧ j = 3 then 100 else 0

/-- A 10×10 grid whose only occupied cell is `(5, 5)`. -/
def m10 : Grid := fun i j => if i = 5 ∧ j = 5 then 100 else 0

set_option maxRecDepth 40000 in
/-- C2 counterexample.  First, with the COM1 parameters
(resolution 0.02, inflation ratio 2) the code's
`int(0.2552 / 0.02 * 2)` is 25 while the claimed `round` gives 26.
Second, the marked window is `[i - pb, i + pb) × [j - pb, j + pb)`,
not the claimed closed square of half-width `pb`: on a 7×7 grid with
only `(3, 3)` occupied and `pb = 1`, the cell `(4, 3)` — at Chebyshev
distance 1 from the occupied cell, hence inside the claimed window —
stays 0 after inflation. -/
theorem C2_counterexample :
    pixelBuffer (2/100) 2 = 25 ∧ round (ROBOT_SIZE / (2/100) * 2) = 26 ∧
    mC2 3 3 = 100 ∧ ((3 : ℤ) - 1 ≤ 4 ∧ (4 : ℤ) ≤ 3 + 1) ∧
    inflate mC2 7 7 1 4 3 = 0 := by
  refine ⟨by norm_num [pixelBuffer, pyInt, ROBOT_SIZE], ?_, by norm_num [mC2], by norm_num, ?_⟩
  · rw [round_eq]
    norm_num [ROBOT_SIZE]
  · decide

/-- C2 (corrected): `pixel_buffer` is the *truncation* (here: floor)
of `robot_size / resolution × inflation_ratio`, not its rounding; and
a cell of the output is occupied iff it is occupied in the raw grid or
lies in the half-open window `[i-pb, i+pb) × [j-pb, j+pb)` (clamped to
the grid) of some cell `(i, j)` that is occupied or on the border;
every other cell keeps its raw value. -/
theorem C2_inflation_characterization (m : Grid) (H W : ℕ) (pb : ℤ) (res ir : ℚ) :
    (0 < res → 0 ≤ ir → pixelBuffer res ir = ⌊ROBOT_SIZE / res * ir⌋) ∧
    (∀ r c, inflate m H W pb r c = 100 ↔
      (m r c = 100 ∨
        ∃ i, i < H ∧ ∃ j, j < W ∧ triggerB m H W i j = true ∧
          inWindowB H W pb i j r c = true)) ∧
    (∀ r c, inflate m H W pb r c = 100 ∨ inflate m H W pb r c = m r c) := by
  refine ⟨fun hres hir => ?_, inflate_eq_100_iff m H W pb, inflate_preserve m H W pb⟩
  unfold pixelBuffer pyInt
  rw [if_pos (mul_nonneg (div_nonneg (by norm_num [ROBOT_SIZE]) hres.le) hir)]

theorem C2_inflation_witness :
    pixelBuffer (5/100) 2 = ⌊ROBOT_SIZE / (5/100) * 2⌋ ∧
    (inflate m10 10 10 2 2 2 = 100 ∨ inflate m10 10 10 2 2 2 = m10 2 2) :=
  ⟨(C2_inflation_characterization m10 10 10 2 (5/100) 2).1 (by norm_num) (by norm_num),
    (C2_inflation_characterization m10 10 10 2 (5/100) 2).2.2 2 2⟩

set_option maxRecDepth 100000 in
/-- C5 counterexample: inflation is *not* idempotent.  On a 10×10 grid
with only `(5, 5)` occupied and `pb = 2`, cell `(2, 2)` is free after
one inflation but occupied after inflating the inflated grid again
with the same buffer (the freshly marked cell `(3, 3)` acts as a new
trigger). -/
theorem C5_counterexample :
    inflate m10 10 10 2 2 2 = 0 ∧ inflate (inflate m10 10 10 2) 10 10 2 2 2 = 100 := by
  constructor <;> decide

/-- C5 (corrected): re-applying inflation with the same buffer never
removes an occupied cell — inflation is extensive under re-application
(`occupied(inflate(raw)) ⊆ occupied(inflate(inflate(raw)))`) — but it
is not idempotent: the re-application may mark further cells. -/
theorem C5_reinflation_monotone (m : Grid) (H W : ℕ) (pb : ℤ) (r c : ℕ)
    (h : inflate m H W pb r c = 100) :
    inflate (inflate m H W pb) H W pb r c = 100 :=
  inflate_occupied (inflate m H W pb) H W pb r c h

theorem C5_reinflation_witness :
    inflate (inflate m10 10 10 2) 10 10 2 3 3 = 100 :=
  C5_reinflation_monotone m10 10 10 2 3 3 (by decide)

/-- C6: inflation is monotone — every cell occupied (value 100) in the
raw grid is still occupied in the inflated grid; inflation never
removes obstacles. -/
theorem C6_inflation_monotone (m : Grid) (H W : ℕ) (pb : ℤ) (r c : ℕ)
    (h : m r c = 100) : inflate m H W pb r c = 100 :=
  inflate_occupied m H W pb r c h

theorem C6_inflation_witness : inflate m10 10 10 2 5 5 = 100 :=
  C6_inflation_monotone m10 10 10 2 5 5 (by decide)



/-! ## Policy-table serialisation (`dump_action_table`) -/

/-- The key transformation performed by `dump_action_table`:
`key = ','.join([str(i) for i in k])`.  The `action_table` built by
`generate_plan` already has *string* keys of the form `"x,y,heading"`,
so the comprehension iterates over the characters of the key and the
join re-separates every character with a comma. -/
def dump_table_key (k : String) : String :=
  String.intercalate (",") (k.data.map (fun c => String.mk [c]))

/-- `dump_action_table` on an association-list model of the dict: every
key is rewritten by `dump_table_key`, values are kept.  The JSON
dump/load round trip is the identity on the resulting string-keyed
list. -/
def dumpTable {A : Type*} (tab : List (String × A)) : List (String × A) :=
  tab.map (fun kv => (dump_table_key kv.1, kv.2))

/-- C3: the round trip is broken.  Dumping the table entry
`"1,2,0" ↦ (1, 0)` writes the key `"1,,,2,,,0"`, so after reload the
executor's lookup of `"1,2,0"` fails (Python raises `KeyError`),
while the same lookup on the original table succeeds. -/
theorem C3_roundtrip_bug :
    dump_table_key ("1,2,0") = "1,,,2,,,0" ∧
    (dumpTable [(("1,2,0"), ((1 : ℤ), (0 : ℤ)))]).lookup ("1,2,0") = none ∧
    ([(("1,2,0"), ((1 : ℤ), (0 : ℤ)))]).lookup ("1,2,0") = some (1, 0) := by
  refine ⟨?_, ?_, ?_⟩ <;> decide

/-! ## Deterministic search expansion (`CSDA_planner.generate_plan`) -/

/-- A search node `(f, g, pose)`; the action and parent fields of the
Python node tuple do not influence the expansion logic modelled here. -/
structure SNode where
  f : ℝ
  g : ℝ
  pose : ℝ × ℝ × ℝ

/-- Python dict lookup on an association list (later bindings shadow
earlier ones). -/
def dictFind {α β : Type*} [DecidableEq α] : List (α × β) → α → Option β
  | [], _ => none
  | (k, v) :: rest, a => if a = k then some v else dictFind rest a

/-- Python dict assignment: the new binding shadows any earlier one. -/
def dictInsert {α β : Type*} (l : List (α × β)) (k : α) (v : β) : List (α × β) :=
  (k, v) :: l

/-- `round_partial(x) = round(x / search_resolution) * search_resolution`. -/
noncomputable def roundPartial (sr x : ℝ) : ℝ := (round (x / sr) : ℤ) * sr

/-- `Planner.continuous_to_resolution`: snap `x`, `y` and the
normalised heading `φ/(π/2)` to multiples of the search resolution. -/
noncomputable def continuous_to_resolution (sr : ℝ) (s : ℝ × ℝ × ℝ) : ℝ × ℝ × ℝ :=
  (roundPartial sr s.1, roundPartial sr s.2.1, roundPartial sr (s.2.2 / (Real.pi / 2)))

/-- One expansion of a popped node (`CSDA_planner.generate_plan`,
lines 249–260): the skip test and the visited-map update use the
discretized key of the *popped* node's pose; each successor produced by
`motion_predict` is then tested by its raw *continuous* pose against
the visited map, and pushed when unvisited or strictly better.
`d` stands for `self._d_from_goal` and `mp` for `self.motion_predict`. -/
noncomputable def expandStep (d : ℝ × ℝ × ℝ → ℝ)
    (mp : ℝ × ℝ × ℝ → ℝ × ℝ → Option (ℝ × ℝ × ℝ)) (sr : ℝ) (actions : List (ℝ × ℝ))
    (node : SNode) (visited : List ((ℝ × ℝ × ℝ) × ℝ)) :
    List ((ℝ × ℝ × ℝ) × ℝ) × List SNode :=
  if (match dictFind visited (continuous_to_resolution sr node.pose) with
      | some val => decide (val ≤ node.f)
      | none => false) = true then (visited, [])
  else
    (dictInsert visited (continuous_to_resolution sr node.pose) node.f,
      actions.filterMap fun a =>
        match mp node.pose a with
        | none => none
        | some ns =>
          match dictFind (dictInsert visited (continuous_to_resolution sr node.pose) node.f) ns with
          | none => some ⟨d ns + node.g + 1, node.g + 1, ns⟩
          | some val =>
            if d ns + node.g + 1 < val then some ⟨d ns + node.g + 1, node.g + 1, ns⟩
            else none)

/-- The popped node is skipped: its discretized key is already visited
with a value not worse than the node's priority. -/
def expandSkip (sr : ℝ) (node : SNode) (visited : List ((ℝ × ℝ × ℝ) × ℝ)) : Prop :=
  ∃ val, dictFind visited (continuous_to_resolution sr node.pose) = some val ∧ val ≤ node.f

/-- The push condition exactly as claim C4 states it: the *discretized*
key of the successor pose is unvisited, or visited with a strictly
worse (higher) stored value.  (Modelled from the claim's words, for
comparison with the source's `expandStep`.) -/
def specPushCondition (d : ℝ × ℝ × ℝ → ℝ) (sr : ℝ) (visited : List ((ℝ × ℝ × ℝ) × ℝ))
    (node : SNode) (ns : ℝ × ℝ × ℝ) : Prop :=
  dictFind visited (continuous_to_resolution sr ns) = none ∨
    ∃ val, dictFind visited (continuous_to_resolution sr ns) = some val ∧
      d ns + node.g + 1 < val

/-- C4 (corrected): for a popped node that is not skipped, the visited
map is updated once — at the discretized key of the *popped* pose, to
the popped node's priority — and a successor is pushed iff its raw
*continuous* pose is absent from the updated visited map or present
with a strictly larger stored value.  No visited-map entry is written
for the successor at push time, and the discretized key of the
successor plays no role. -/
theorem C4_expansion (d : ℝ × ℝ × ℝ → ℝ) (mp : ℝ × ℝ × ℝ → ℝ × ℝ → Option (ℝ × ℝ × ℝ))
    (sr : ℝ) (actions : List (ℝ × ℝ)) (node : SNode) (visited : List ((ℝ × ℝ × ℝ) × ℝ)) :
    (expandSkip sr node visited → expandStep d mp sr actions node visited = (visited, [])) ∧
    (¬ expandSkip sr node visited →
      (expandStep d mp sr actions node visited).1 =
        dictInsert visited (continuous_to_resolution sr node.pose) node.f ∧
      ∀ nd : SNode, nd ∈ (expandStep d mp sr actions node visited).2 ↔
        ∃ a ∈ actions, ∃ ns, mp node.pose a = some ns ∧
          (dictFind (dictInsert visited (continuous_to_resolution sr node.pose) node.f) ns =
              none ∨
            ∃ val,
              dictFind (dictInsert visited (continuous_to_resolution sr node.pose) node.f) ns =
                some val ∧ d ns + node.g + 1 < val) ∧
          nd = ⟨d ns + node.g + 1, node.g + 1, ns⟩) := by
  constructor
  · rintro ⟨val, hval, hle⟩
    unfold expandStep
    rw [hval]
    simp [hle]
  · intro hns
    have hbool : (match dictFind visited (continuous_to_resolution sr node.pose) with
        | some val => decide (val ≤ node.f)
        | none => false) = false := by
      cases hfind : dictFind visited (continuous_to_resolution sr node.pose) with
      | none => rfl
      | some val =>
        by_cases h : val ≤ node.f
        · exact absurd ⟨val, hfind, h⟩ hns
        · simpa using h
    unfold expandStep
    rw [hbool]
    rw [if_neg (by simp : ¬((false : Bool) = true))]
    refine ⟨rfl, fun nd => ?_⟩
    rw [List.mem_filterMap]
    constructor
    · rintro ⟨a, ha, hfa⟩
      refine ⟨a, ha, ?_⟩
      cases hmp : mp node.pose a with
      | none =>
        rw [hmp] at hfa
        simp at hfa
      | some ns =>
        rw [hmp] at hfa
        refine ⟨ns, rfl, ?_⟩
        cases hfd : dictFind (dictInsert visited (continuous_to_resolution sr node.pose) node.f)
            ns with
        | none =>
          simp only [hfd, Option.some.injEq] at hfa
          exact ⟨Or.inl rfl, hfa.symm⟩
        | some val =>
          simp only [hfd] at hfa
          by_cases hlt : d ns + node.g + 1 < val
          · rw [if_pos hlt] at hfa
            exact ⟨Or.inr ⟨val, rfl, hlt⟩, (Option.some.inj hfa).symm⟩
          · rw [if_neg hlt] at hfa
            exact absurd hfa (by simp)
    · rintro ⟨a, ha, ns, hmp, hcond, hnd⟩
      refine ⟨a, ha, ?_⟩
      show (match mp node.pose a with
        | none => none
        | some ns =>
          match dictFind (dictInsert visited (continuous_to_resolution sr node.pose) node.f)
              ns with
          | none => some (⟨d ns + node.g + 1, node.g + 1, ns⟩ : SNode)
          | some val =>
            if d ns + node.g + 1 < val then some (⟨d ns + node.g + 1, node.g + 1, ns⟩ : SNode)
            else none) = some nd
      rw [hmp]
      rcases hcond with hfd | ⟨val, hfd, hlt⟩
      · simp only [hfd]
        rw [hnd]
      · simp only [hfd]
        rw [if_pos hlt, hnd]

theorem C4_expansion_witness :
    expandStep (fun _ => 6) (fun _ _ => some (1/25, 0, 0)) (1/10) [(1, 0)]
        ⟨7, 0, ((1 : ℝ), 0, 0)⟩ [(((1 : ℝ), (0 : ℝ), (0 : ℝ)), (5 : ℝ))] =
      ([(((1 : ℝ), (0 : ℝ), (0 : ℝ)), (5 : ℝ))], []) := by
  have hA : continuous_to_resolution (1/10 : ℝ) ((1 : ℝ), 0, 0) = ((1 : ℝ), 0, 0) := by
    norm_num [continuous_to_resolution, roundPartial, round_eq]
  refine (C4_expansion (fun _ => 6) (fun _ _ => some (1/25, 0, 0)) (1/10) [(1, 0)]
      ⟨7, 0, ((1 : ℝ), 0, 0)⟩ [(((1 : ℝ), (0 : ℝ), (0 : ℝ)), (5 : ℝ))]).1 ⟨5, ?_, by norm_num⟩
  show dictFind [(((1 : ℝ), (0 : ℝ), (0 : ℝ)), (5 : ℝ))]
      (continuous_to_resolution (1/10) ((1 : ℝ), 0, 0)) = some 5
  rw [hA]
  simp [dictFind]

/-- C4 counterexample: take `visited = [((0,0,0), 5)]`, a popped node
with pose `(1, 0, 0)`, `f = 7`, `g = 0`, one action whose
`motion_predict` yields the pose `(0.04, 0, 0)`, `d = 6` everywhere and
search resolution `0.1`.  The discretized key of the successor is
`(0, 0, 0)`, already visited with the strictly better value
`5 < 7 = d + g + 1`, so the claim predicts no push — yet the code
pushes the node (the *continuous* pose `(0.04, 0, 0)` is not a key),
and the visited entry of the discretized key keeps its value 5. -/
theorem C4_counterexample :
    (expandStep (fun _ => 6) (fun _ _ => some (1/25, 0, 0)) (1/10) [(1, 0)]
        ⟨7, 0, ((1 : ℝ), 0, 0)⟩ [(((0 : ℝ), (0 : ℝ), (0 : ℝ)), (5 : ℝ))]).2 =
      [⟨7, 1, (1/25, 0, 0)⟩] ∧
    ¬ specPushCondition (fun _ => 6) (1/10) [(((0 : ℝ), (0 : ℝ), (0 : ℝ)), (5 : ℝ))]
        ⟨7, 0, ((1 : ℝ), 0, 0)⟩ ((1/25 : ℝ), 0, 0) ∧
    dictFind (expandStep (fun _ => 6) (fun _ _ => some (1/25, 0, 0)) (1/10) [(1, 0)]
        ⟨7, 0, ((1 : ℝ), 0, 0)⟩ [(((0 : ℝ), (0 : ℝ), (0 : ℝ)), (5 : ℝ))]).1
      (continuous_to_resolution (1/10) ((1/25 : ℝ), 0, 0)) = some 5 := by
  have hA : continuous_to_resolution (1/10 : ℝ) ((1 : ℝ), 0, 0) = ((1 : ℝ), 0, 0) := by
    norm_num [continuous_to_resolution, roundPartial, round_eq]
  have hB : continuous_to_resolution (1/10 : ℝ) ((1/25 : ℝ), 0, 0) = ((0 : ℝ), 0, 0) := by
    norm_num [continuous_to_resolution, roundPartial, round_eq]
  have hstep : expandStep (fun _ => 6) (fun _ _ => some (1/25, 0, 0)) (1/10) [(1, 0)]
      ⟨7, 0, ((1 : ℝ), 0, 0)⟩ [(((0 : ℝ), (0 : ℝ), (0 : ℝ)), (5 : ℝ))] =
      ([(((1 : ℝ), (0 : ℝ), (0 : ℝ)), (7 : ℝ)), (((0 : ℝ), (0 : ℝ), (0 : ℝ)), (5 : ℝ))],
        [⟨7, 1, (1/25, 0, 0)⟩]) := by
    unfold expandStep
    rw [hA]
    norm_num [dictFind, dictInsert, List.filterMap]
  refine ⟨by rw [hstep], ?_, by rw [hstep, hB]; norm_num [dictFind, Prod.ext_iff]⟩
  unfold specPushCondition
  rw [hB]
  push_neg
  constructor
  · simp [dictFind]
  · intro val hval
    have h5 : 5 = val := by
      simpa [dictFind] using hval
    rw [← h5]
    norm_num

/-! ## MDP value iteration (`DSPA_planner.generate_plan`) -/

/-- A discrete MDP state `(x, y, heading)`. -/
abbrev MState := ℤ × ℤ × ℤ

/-- `self.crash_penalty = -20`. -/
def crash_penalty : ℝ := -20

/-- `Planner.get_next_state_value`: `crash_penalty` for a missing
(collided) next state, else the stored value. -/
def get_next_state_value (V : MState → ℝ) : Option MState → ℝ
  | none => crash_penalty
  | some s => V s

/-- `Planner.get_forward_action_value`, with `dmp` standing for
`self.discrete_motion_predict`: the 0.9-weighted intended forward
outcome plus the 0.05-weighted forward-left and forward-right
outcomes. -/
noncomputable def get_forward_action_value (V : MState → ℝ)
    (dmp : ℤ → ℤ → ℤ → ℝ → ℝ → Option MState) (s : MState) : ℝ :=
  get_next_state_value V (dmp s.1 s.2.1 s.2.2 1 0) * 0.9 +
    get_next_state_value V (dmp s.1 s.2.1 s.2.2 (Real.pi / 2) 1) * 0.05 +
    get_next_state_value V (dmp s.1 s.2.1 s.2.2 (Real.pi / 2) (-1)) * 0.05

/-- The action set `[(1, 0), (0, 1), (0, -1)]`. -/
def mdpActions : List (ℤ × ℤ) := [(1, 0), (0, 1), (0, -1)]

/-- The per-action expected next-state value used both inside the
Bellman sweep and in the extraction loop: the deterministic
`discrete_motion_predict` outcome for the two turn actions, the
weighted forward value for `(1, 0)`. -/
noncomputable def actionNextValue (V : MState → ℝ)
    (dmp : ℤ → ℤ → ℤ → ℝ → ℝ → Option MState) (s : MState) (a : ℤ × ℤ) : ℝ :=
  if a = (0, 1) ∨ a = (0, -1) then
    get_next_state_value V (dmp s.1 s.2.1 s.2.2 (a.1 : ℝ) (a.2 : ℝ))
  else get_forward_action_value V dmp s

/-- Running maximum with strict improvement, the fold both loops of
`generate_plan` perform starting from `-10000000`. -/
noncomputable def runMax {α : Type*} (val : α → ℝ) (l : List α) (m0 : ℝ) : ℝ :=
  l.foldl (fun m a => if val a > m then val a else m) m0

/-- Running argmax with strict improvement, as in the extraction loop
(`max_value, best_action` starting at `(-10000000, None)`). -/
noncomputable def argmaxFold {α : Type*} (val : α → ℝ) (l : List α) (m0 : ℝ) (o0 : Option α) :
    ℝ × Option α :=
  l.foldl (fun acc a => if val a > acc.1 then (val a, some a) else acc) (m0, o0)

/-- The policy-extraction loop of `generate_plan` (lines 298–312) for
one state: the running best value and best action over the three
actions, compared by their *next-state* values alone. -/
noncomputable def bestAction (V : MState → ℝ) (dmp : ℤ → ℤ → ℤ → ℝ → ℝ → Option MState)
    (s : MState) : ℝ × Option (ℤ × ℤ) :=
  argmaxFold (actionNextValue V dmp s) mdpActions (-10000000) none

theorem runMax_spec {α : Type*} (val : α → ℝ) :
    ∀ (l : List α) (m0 : ℝ), m0 ≤ runMax val l m0 ∧ ∀ b ∈ l, val b ≤ runMax val l m0 := by
  intro l
  induction l with
  | nil =>
    intro m0
    exact ⟨le_refl m0, by simp⟩
  | cons x xs ih =>
    intro m0
    unfold runMax
    rw [List.foldl_cons]
    by_cases hx : val x > m0
    · rw [if_pos hx]
      obtain ⟨h1, h2⟩ := ih (val x)
      refine ⟨le_trans hx.le h1, fun b hb => ?_⟩
      rcases List.mem_cons.mp hb with rfl | hb
      · exact h1
      · exact h2 b hb
    · rw [if_neg hx]
      push_neg at hx
      obtain ⟨h1, h2⟩ := ih m0
      refine ⟨h1, fun b hb => ?_⟩
      rcases List.mem_cons.mp hb with rfl | hb
      · exact le_trans hx h1
      · exact h2 b hb

theorem argmaxFold_spec {α : Type*} (val : α → ℝ) :
    ∀ (l : List α) (m0 : ℝ) (o0 : Option α),
      m0 ≤ (argmaxFold val l m0 o0).1 ∧
      (∀ b ∈ l, val b ≤ (argmaxFold val l m0 o0).1) ∧
      (((argmaxFold val l m0 o0).2 = o0 ∧ (argmaxFold val l m0 o0).1 = m0) ∨
        ∃ a ∈ l, (argmaxFold val l m0 o0).2 = some a ∧
          (argmaxFold val l m0 o0).1 = val a) := by
  intro l
  induction l with
  | nil =>
    intro m0 o0
    exact ⟨le_refl m0, by simp, Or.inl ⟨rfl, rfl⟩⟩
  | cons x xs ih =>
    intro m0 o0
    unfold argmaxFold
    rw [List.foldl_cons]
    by_cases hx : val x > m0
    · rw [if_pos hx]
      obtain ⟨h1, h2, h3⟩ := ih (val x) (some x)
      refine ⟨le_trans hx.le h1, fun b hb => ?_, ?_⟩
      · rcases List.mem_cons.mp hb with rfl | hb
        · exact h1
        · exact h2 b hb
      · rcases h3 with ⟨ho, hm⟩ | ⟨a, ha, ho, hm⟩
        · exact Or.inr ⟨x, List.mem_cons_self x xs, ho, hm⟩
        · exact Or.inr ⟨a, List.mem_cons_of_mem x ha, ho, hm⟩
    · rw [if_neg hx]
      push_neg at hx
      obtain ⟨h1, h2, h3⟩ := ih m0 o0
      refine ⟨h1, fun b hb => ?_, ?_⟩
      · rcases List.mem_cons.mp hb with rfl | hb
        · exact le_trans hx h1
        · exact h2 b hb
      · rcases h3 with h | ⟨a, ha, ho, hm⟩
        · exact Or.inl h
        · exact Or.inr ⟨a, List.mem_cons_of_mem x ha, ho, hm⟩

/-- C8: whenever the extraction loop records an action for a state, it
is one of the three actions and it maximizes the per-action expected
next-state value alone — the deterministic `discrete_motion_predict`
value for the turn actions, the 0.9/0.05/0.05-weighted sum for
FORWARD, with collided or missing outcomes contributing
`crash_penalty`; neither the immediate reward `R(s)` nor the discount
enters the comparison. -/
theorem C8_policy_extraction (V : MState → ℝ) (dmp : ℤ → ℤ → ℤ → ℝ → ℝ → Option MState)
    (s : MState) (a : ℤ × ℤ) (h : (bestAction V dmp s).2 = some a) :
    a ∈ mdpActions ∧
      ∀ b ∈ mdpActions, actionNextValue V dmp s b ≤ actionNextValue V dmp s a := by
  obtain ⟨h1, h2, h3⟩ := argmaxFold_spec (actionNextValue V dmp s) mdpActions (-10000000) none
  rw [bestAction] at h
  rcases h3 with ⟨ho, _⟩ | ⟨a2, ha2, ho, hm⟩
  · rw [ho] at h
    cases h
  · rw [ho] at h
    obtain rfl := Option.some.inj h
    exact ⟨ha2, fun b hb => (h2 b hb).trans_eq hm⟩

theorem C8_policy_extraction_witness :
    (1, 0) ∈ mdpActions ∧
      ∀ b ∈ mdpActions,
        actionNextValue (fun _ => 0) (fun _ _ _ _ _ => none) (0, 0, 0) b ≤
          actionNextValue (fun _ => 0) (fun _ _ _ _ _ => none) (0, 0, 0) (1, 0) :=
  C8_policy_extraction (fun _ => 0) (fun _ _ _ _ _ => none) (0, 0, 0) (1, 0) (by
    norm_num [bestAction, argmaxFold, mdpActions, actionNextValue, get_forward_action_value,
      get_next_state_value, crash_penalty, Prod.ext_iff])

/-- `Planner._d_from_goal`: Euclidean distance to the goal position. -/
noncomputable def d_from_goal (goal : ℝ × ℝ) (x y : ℝ) : ℝ :=
  Real.sqrt ((x - goal.1) ^ 2 + (y - goal.2) ^ 2)

/-- `self.distance_penalty_normalization` from `__init__`. -/
noncomputable def distance_penalty_normalization (p : Planner ℝ) : ℝ :=
  ((p.world_height : ℝ) * p.resolution + (p.world_width : ℝ) * p.resolution) * 10

/-- `Planner.get_current_state_value`: `crash_penalty` in collision,
`+20` within goal distance 0.25, else the normalized negative distance
to the goal. -/
noncomputable def get_current_state_value (p : Planner ℝ) (goal : ℝ × ℝ) (s : MState) : ℝ :=
  if collision_checker_DSPA p (s.1 : ℝ) (s.2.1 : ℝ) = some true then crash_penalty
  else if d_from_goal goal (s.1 : ℝ) (s.2.1 : ℝ) < 0.25 then 20
  else -(d_from_goal goal (s.1 : ℝ) (s.2.1 : ℝ) / distance_penalty_normalization p)

/-- The per-state Bellman update of one sweep: running maximum over the
three actions of `current_state_value + 0.95 * next_state_value`,
starting from `-10000000`. -/
noncomputable def sweepStateValue (p : Planner ℝ) (goal : ℝ × ℝ)
    (dmp : ℤ → ℤ → ℤ → ℝ → ℝ → Option MState) (V : MState → ℝ) (s : MState) : ℝ :=
  runMax (fun a => get_current_state_value p goal s + 0.95 * actionNextValue V dmp s a)
    mdpActions (-10000000)

/-- One sweep of `generate_plan`: every state of the list is updated in
place, in order (Gauss–Seidel — later states read the already-updated
table). -/
noncomputable def sweep (p : Planner ℝ) (goal : ℝ × ℝ)
    (dmp : ℤ → ℤ → ℤ → ℝ → ℝ → Option MState) (states : List MState) (V : MState → ℝ) :
    MState → ℝ :=
  states.foldl (fun V s => fun t => if t = s then sweepStateValue p goal dmp V s else V t) V

/-- `steps` sweeps starting from the all-zero value table. -/
noncomputable def valueIter (p : Planner ℝ) (goal : ℝ × ℝ)
    (dmp : ℤ → ℤ → ℤ → ℝ → ℝ → Option MState) (states : List MState) : ℕ → MState → ℝ
  | 0 => fun _ => 0
  | n + 1 => sweep p goal dmp states (valueIter p goal dmp states n)

/-- The state enumeration of `generate_plan`: `(width, height, theta)`
for `height` in `range(int(world_height*resolution)+1)`, `width` in
`range(int(world_width*resolution)+1)`, `theta` in `range(4)`. -/
noncomputable def statesList (p : Planner ℝ) : List MState :=
  (List.range ((pyInt ((p.world_height : ℝ) * p.resolution)).toNat + 1)).flatMap fun h =>
    (List.range ((pyInt ((p.world_width : ℝ) * p.resolution)).toNat + 1)).flatMap fun w =>
      (List.range 4).map fun t => ((w : ℤ), (h : ℤ), (t : ℤ))

/-- The dict key `"{},{},{}".format(x, y, theta % 4)`. -/
def stateKey (s : MState) : String :=
  toString s.1 ++ "," ++ toString s.2.1 ++ "," ++ toString (s.2.2 % 4)

/-- The extraction loop's dict assignments
`action_table[key] = best_action`; a later write shadows an earlier
one, a missing key is `none` (Python's `KeyError`). -/
noncomputable def buildTable (bestA : MState → Option (ℤ × ℤ)) (states : List MState) :
    String → Option (Option (ℤ × ℤ)) :=
  states.foldl (fun tab s => fun k => if k = stateKey s then some (bestA s) else tab k)
    (fun _ => none)

/-- `generate_plan` of the MDP planner: `steps` value sweeps from the
all-zero table over the enumerated states, then policy extraction into
`action_table`. -/
noncomputable def generatePlanTable (p : Planner ℝ) (goal : ℝ × ℝ)
    (dmp : ℤ → ℤ → ℤ → ℝ → ℝ → Option MState) (steps : ℕ) :
    String → Option (Option (ℤ × ℤ)) :=
  buildTable (fun s => (bestAction (valueIter p goal dmp (statesList p) steps) dmp s).2)
    (statesList p)

theorem get_next_state_value_ge (V : MState → ℝ) (hV : ∀ t, -8000000 ≤ V t) :
    ∀ ns, -8000000 ≤ get_next_state_value V ns
  | none => by norm_num [get_next_state_value, crash_penalty]
  | some t => hV t

theorem actionNextValue_ge (V : MState → ℝ) (dmp : ℤ → ℤ → ℤ → ℝ → ℝ → Option MState)
    (s : MState) (a : ℤ × ℤ) (hV : ∀ t, -8000000 ≤ V t) :
    -8000000 ≤ actionNextValue V dmp s a := by
  unfold actionNextValue
  split
  · exact get_next_state_value_ge V hV _
  · unfold get_forward_action_value
    have h1 := get_next_state_value_ge V hV (dmp s.1 s.2.1 s.2.2 1 0)
    have h2 := get_next_state_value_ge V hV (dmp s.1 s.2.1 s.2.2 (Real.pi / 2) 1)
    have h3 := get_next_state_value_ge V hV (dmp s.1 s.2.1 s.2.2 (Real.pi / 2) (-1))
    nlinarith

theorem sweepStateValue_ge (p : Planner ℝ) (goal : ℝ × ℝ)
    (dmp : ℤ → ℤ → ℤ → ℝ → ℝ → Option MState) (V : MState → ℝ) (s : MState)
    (hV : ∀ t, -8000000 ≤ V t) (hR : -400000 ≤ get_current_state_value p goal s) :
    -8000000 ≤ sweepStateValue p goal dmp V s := by
  have h := (runMax_spec
      (fun a => get_current_state_value p goal s + 0.95 * actionNextValue V dmp s a)
      mdpActions (-10000000)).2 (1, 0) (by simp [mdpActions])
  have hA := actionNextValue_ge V dmp s (1, 0) hV
  simp only [] at h
  unfold sweepStateValue
  linarith

theorem sweep_ge (p : Planner ℝ) (goal : ℝ × ℝ)
    (dmp : ℤ → ℤ → ℤ → ℝ → ℝ → Option MState) :
    ∀ (states : List MState) (V : MState → ℝ),
      (∀ s ∈ states, -400000 ≤ get_current_state_value p goal s) →
      (∀ t, -8000000 ≤ V t) → ∀ t, -8000000 ≤ sweep p goal dmp states V t := by
  intro states
  induction states with
  | nil =>
    intro V _ hV t
    exact hV t
  | cons s l ih =>
    intro V hR hV t
    unfold sweep
    rw [List.foldl_cons]
    have hV2 : ∀ u, -8000000 ≤
        (fun u => if u = s then sweepStateValue p goal dmp V s else V u) u := by
      intro u
      by_cases hu : u = s
      · simpa [hu] using
          sweepStateValue_ge p goal dmp V s hV (hR s (List.mem_cons_self s l))
      · simpa [hu] using hV u
    exact ih _ (fun s2 hs2 => hR s2 (List.mem_cons_of_mem s hs2)) hV2 t

theorem valueIter_ge (p : Planner ℝ) (goal : ℝ × ℝ)
    (dmp : ℤ → ℤ → ℤ → ℝ → ℝ → Option MState) (states : List MState)
    (hR : ∀ s ∈ states, -400000 ≤ get_current_state_value p goal s) :
    ∀ (n : ℕ) (t : MState), -8000000 ≤ valueIter p goal dmp states n t := by
  intro n
  induction n with
  | zero =>
    intro t
    norm_num [valueIter]
  | succ n ih =>
    intro t
    exact sweep_ge p goal dmp states _ hR ih t

theorem bestAction_isSome (V : MState → ℝ) (dmp : ℤ → ℤ → ℤ → ℝ → ℝ → Option MState)
    (s : MState) (hV : ∀ t, -8000000 ≤ V t) :
    ∃ a, (bestAction V dmp s).2 = some a ∧ a ∈ mdpActions := by
  obtain ⟨h1, h2, h3⟩ := argmaxFold_spec (actionNextValue V dmp s) mdpActions (-10000000) none
  rcases h3 with ⟨ho, hm⟩ | ⟨a, ha, ho, hm⟩
  · exfalso
    have hF := h2 (1, 0) (by simp [mdpActions])
    have hA := actionNextValue_ge V dmp s (1, 0) hV
    rw [hm] at hF
    linarith
  · exact ⟨a, ho, ha⟩

theorem buildTableAux_or (bestA : MState → Option (ℤ × ℤ)) :
    ∀ (l : List MState) (tab : String → Option (Option (ℤ × ℤ))) (k : String),
      (l.foldl (fun tab s => fun k => if k = stateKey s then some (bestA s) else tab k) tab) k =
          tab k ∨
        ∃ s ∈ l,
          (l.foldl (fun tab s => fun k => if k = stateKey s then some (bestA s) else tab k)
            tab) k = some (bestA s) := by
  intro l
  induction l with
  | nil =>
    intro tab k
    exact Or.inl rfl
  | cons x xs ih =>
    intro tab k
    rw [List.foldl_cons]
    rcases ih ((fun tab s => fun k => if k = stateKey s then some (bestA s) else tab k) tab x)
        k with h | ⟨s, hs, h⟩
    · by_cases hk : k = stateKey x
      · refine Or.inr ⟨x, List.mem_cons_self x xs, ?_⟩
        rw [h]
        simp [hk]
      · left
        rw [h]
        simp [hk]
    · exact Or.inr ⟨s, List.mem_cons_of_mem x hs, h⟩

theorem buildTable_covers (bestA : MState → Option (ℤ × ℤ)) :
    ∀ (l : List MState) (tab : String → Option (Option (ℤ × ℤ))) (s : MState), s ∈ l →
      ∃ s2 ∈ l,
        (l.foldl (fun tab s => fun k => if k = stateKey s then some (bestA s) else tab k)
          tab) (stateKey s) = some (bestA s2) := by
  intro l
  induction l with
  | nil =>
    intro tab s hs
    cases hs
  | cons x xs ih =>
    intro tab s hs
    rw [List.foldl_cons]
    rcases List.mem_cons.mp hs with rfl | hs2
    · rcases buildTableAux_or bestA xs
          ((fun tab s => fun k => if k = stateKey s then some (bestA s) else tab k) tab s)
          (stateKey s) with h | ⟨s2, hs2, h⟩
      · refine ⟨s, List.mem_cons_self s xs, ?_⟩
        rw [h]
        simp
      · exact ⟨s2, List.mem_cons_of_mem s hs2, h⟩
    · obtain ⟨s2, hs3, h⟩ := ih
        ((fun tab s => fun k => if k = stateKey s then some (bestA s) else tab k) tab x) s hs2
      exact ⟨s2, List.mem_cons_of_mem x hs3, h⟩

/-- C9: provided the reward of every enumerated state is at least
`-400000` (true for any goal within a vastly larger region than any
map), the `action_table` produced by `generate_plan` maps the key
`"x,y,θ"` of every enumerated state `(x, y, θ)` to `some` action among
`(1,0)`, `(0,1)`, `(0,-1)` — never `None` — so the executor lookup of
any in-range discrete state cannot fail. -/
theorem C9_action_table_total (p : Planner ℝ) (goal : ℝ × ℝ)
    (dmp : ℤ → ℤ → ℤ → ℝ → ℝ → Option MState) (steps : ℕ)
    (hR : ∀ s ∈ statesList p, -400000 ≤ get_current_state_value p goal s) :
    ∀ s ∈ statesList p, ∃ a,
      generatePlanTable p goal dmp steps (stateKey s) = some (some a) ∧ a ∈ mdpActions := by
  intro s hs
  have hV : ∀ t, -8000000 ≤ valueIter p goal dmp (statesList p) steps t :=
    valueIter_ge p goal dmp (statesList p) hR steps
  obtain ⟨s2, hs2, hwrite⟩ := buildTable_covers
    (fun u => (bestAction (valueIter p goal dmp (statesList p) steps) dmp u).2)
    (statesList p) (fun _ => none) s hs
  obtain ⟨a, ha, hmem⟩ :=
    bestAction_isSome (valueIter p goal dmp (statesList p) steps) dmp s2 hV
  refine ⟨a, ?_, hmem⟩
  unfold generatePlanTable buildTable
  rw [hwrite]
  show some ((bestAction (valueIter p goal dmp (statesList p) steps) dmp s2).2) = some (some a)
  rw [ha]

theorem pyInt_intCast {K : Type*} [LinearOrderedField K] [FloorRing K] (t : ℤ) :
    pyInt ((t : K)) = t := by
  unfold pyInt
  split
  · exact Int.floor_intCast t
  · rw [← Int.cast_neg, Int.floor_intCast]
    omega

/-- A 1×1 world at resolution 1 over `ℝ`: every integer coordinate is
rejected by the DSPA bounds check. -/
noncomputable def pW : Planner ℝ := ⟨1, 1, 1, fun _ _ => 0⟩

theorem pW_all_collide (s : MState) :
    collision_checker_DSPA pW (s.1 : ℝ) (s.2.1 : ℝ) = some true := by
  have hx : pyInt ((s.1 : ℝ) / pW.resolution) = s.1 := by
    rw [show pW.resolution = (1 : ℝ) from rfl, div_one, pyInt_intCast]
  have hy : pyInt ((s.2.1 : ℝ) / pW.resolution) = s.2.1 := by
    rw [show pW.resolution = (1 : ℝ) from rfl, div_one, pyInt_intCast]
  unfold collision_checker_DSPA
  rw [if_pos (by
    rw [hx, hy]
    show s.2.1 ≤ 0 ∨ ((1 : ℕ) : ℤ) ≤ s.2.1 ∨ s.1 ≤ 0 ∨ ((1 : ℕ) : ℤ) ≤ s.1
    omega)]

theorem pW_state_mem : ((0 : ℤ), (0 : ℤ), (0 : ℤ)) ∈ statesList pW := by
  have hb : (pyInt ((pW.world_height : ℝ) * pW.resolution)).toNat + 1 = 2 := by
    have h1 : pyInt ((pW.world_height : ℝ) * pW.resolution) = 1 := by
      norm_num [pyInt, pW]
    rw [h1]
    rfl
  have hb2 : (pyInt ((pW.world_width : ℝ) * pW.resolution)).toNat + 1 = 2 := by
    have h1 : pyInt ((pW.world_width : ℝ) * pW.resolution) = 1 := by
      norm_num [pyInt, pW]
    rw [h1]
    rfl
  unfold statesList
  rw [hb, hb2]
  decide

theorem C9_action_table_witness :
    ∃ a, generatePlanTable pW (0, 0) (fun _ _ _ _ _ => none) 200 (stateKey (0, 0, 0)) =
        some (some a) ∧ a ∈ mdpActions :=
  C9_action_table_total pW (0, 0) (fun _ _ _ _ _ => none) 200
    (fun s _ => by
      unfold get_current_state_value
      rw [if_pos (pW_all_collide s)]
      norm_num [crash_penalty])
    (0, 0, 0) pW_state_mem
